import Mathlib

/-!
Verification of the batch-accumulation and execution loop of `gsql`
(src/gsql/gsql.go), a command-batch front end for a tabular database.

Strings are modelled as `List Char`.  The fragment of Go's `regexp`
package exercised by the program (literals, alternation `|`, grouping
`(...)`, the anchors `^` and `$`, and `.`) is embedded as a small regex
AST with Go's unanchored-search / leftmost-first semantics; patterns
containing unsupported metacharacters fail to compile, which in the
program's own flow means the match test reports no match
(`regexp.MatchString` returns `false` together with an error the
program ignores).
-/

namespace Gsql

/-- Regex AST for the fragment of Go regexp syntax the program uses.
`bol`/`eol` are the `^`/`$` assertions; without the `m` flag Go anchors
them to the beginning/end of the whole text. -/
inductive Regex where
  | eps : Regex
  | chr (c : Char) : Regex
  | dot : Regex
  | bol : Regex
  | eol : Regex
  | cat (a b : Regex) : Regex
  | alt (a b : Regex) : Regex
deriving DecidableEq, Repr

/-- All end positions (in preference order: left alternative first, as in
Go's leftmost-first matching) at which `r` can match starting at
position `i` of `s`.  `bol` succeeds only at position 0, `eol` only at
the end of the text, `dot` matches any character except a newline. -/
def run (s : List Char) : Regex → Nat → List Nat
  | .eps, i => [i]
  | .chr c, i =>
    match s.get? i with
    | some c2 => if c2 = c then [i + 1] else []
    | none => []
  | .dot, i =>
    match s.get? i with
    | some c2 => if c2 = '\n' then [] else [i + 1]
    | none => []
  | .bol, i => if i = 0 then [i] else []
  | .eol, i => if i = s.length then [i] else []
  | .cat a b, i => (run s a i).flatMap (run s b)
  | .alt a b, i => run s a i ++ run s b i

/-- Unanchored search: does `r` match some substring of `s`?
Models `regexp.MatchString` on a successfully compiled pattern. -/
def matchString (r : Regex) (s : List Char) : Bool :=
  (List.range (s.length + 1)).any fun i => !(run s r i).isEmpty

/-- Leftmost match of `r` in `s` at or after position `i`: the smallest
start position admitting a match, paired with the first end position in
preference order (Go's leftmost-first match extent). -/
def findFrom (s : List Char) (r : Regex) (i : Nat) : Option (Nat × Nat) :=
  (List.range (s.length + 1 - i)).findSome? fun d =>
    match (run s r (i + d)).head? with
    | some e => some (i + d, e)
    | none => none

/-- Remove all (non-overlapping, leftmost-first) matches of `r` from `s`
starting at position `i`; an empty match copies one character and moves
on.  The fuel argument dominates the number of loop steps. -/
def removeAllAux (s : List Char) (r : Regex) : Nat → Nat → List Char
  | 0, i => s.drop i
  | f + 1, i =>
    match findFrom s r i with
    | none => s.drop i
    | some (st, en) =>
      (s.drop i).take (st - i) ++
        (if st < en then removeAllAux s r f en
         else
           match s.get? st with
           | some c => c :: removeAllAux s r f (st + 1)
           | none => [])

/-- Models `re.ReplaceAllString(s, "")`: delete every match of `re`. -/
def replaceAllEmpty (r : Regex) (s : List Char) : List Char :=
  removeAllAux s r (s.length + 1) 0

mutual

/-- Parse one atom of Go regex syntax: a group `( ... )`, an anchor `^`
or `$`, `.`, or a literal character.  Unsupported metacharacters make
compilation fail. -/
def parseAtom : Nat → List Char → Option (Regex × List Char)
  | 0, _ => none
  | _ + 1, [] => none
  | f + 1, c :: cs =>
    if c = '(' then
      match parseAlt f cs with
      | some (r, ')' :: rest2) => some (r, rest2)
      | _ => none
    else if c = '^' then some (.bol, cs)
    else if c = '$' then some (.eol, cs)
    else if c = '.' then some (.dot, cs)
    else if c = ')' || c = '|' || c = '*' || c = '+' || c = '?' ||
            c = '[' || c = ']' || c = '\\' then none
    else some (.chr c, cs)

/-- Parse a concatenation: a sequence of atoms up to `)`, `|` or the end
of the pattern. -/
def parseCat : Nat → List Char → Option (Regex × List Char)
  | 0, _ => none
  | f + 1, cs =>
    match cs with
    | [] => some (.eps, [])
    | c :: _ =>
      if c = ')' || c = '|' then some (.eps, cs)
      else
        match parseAtom f cs with
        | none => none
        | some (r, rest) =>
          match parseCat f rest with
          | none => none
          | some (r2, rest2) => some (.cat r r2, rest2)

/-- Parse an alternation, the lowest-precedence construct: in Go syntax
`;|^go$` groups as `;` OR `^go$` — the trailing `$` binds only to the
last alternative. -/
def parseAlt : Nat → List Char → Option (Regex × List Char)
  | 0, _ => none
  | f + 1, cs =>
    match parseCat f cs with
    | none => none
    | some (r, rest) =>
      match rest with
      | '|' :: rest2 =>
        match parseAlt f rest2 with
        | none => none
        | some (r2, rest3) => some (.alt r r2, rest3)
      | _ => some (r, rest)

end

/-- Compile a Go regex pattern string (fragment); models
`regexp.Compile`.  The fuel is ample for the pattern's length. -/
def goCompile (p : List Char) : Option Regex :=
  match parseAlt (3 * p.length + 3) p with
  | some (r, []) => some r
  | _ => none

/-- The match test of `processLine`:
`match, _ := regexp.MatchString(terminator+"$", line)`.  On a pattern
that fails to compile Go returns `false` with an error the program
ignores. -/
def plMatch (t line : List Char) : Bool :=
  match goCompile (t ++ ['$']) with
  | some r => matchString r line
  | none => false

/-- The strip step of `processLine`: `re.ReplaceAllString(line, "")`
with the global `re = regexp.MustCompile("(" + terminator + ")$")`.
(`MustCompile` aborts the process at startup on a bad pattern, so the
`none` fallback is unreachable whenever the match test compiled.) -/
def plStrip (t line : List Char) : List Char :=
  match goCompile (('(' :: t) ++ [')', '$']) with
  | some r => replaceAllEmpty r line
  | none => line

/-- Embedding of `processLine(terminator, line, batch)`
(src/gsql/gsql.go:122-134): if the terminator match test fails, the line
is appended to the batch (newline-joined, first line bare) with
`found = false`; otherwise the batch plus the strip-regex replacement of
the line is returned with `found = true`. -/
def processLine (t line batch : List Char) : List Char × Bool :=
  if !(plMatch t line) then
    (if batch = [] then line else batch ++ '\n' :: line, false)
  else
    (batch ++ plStrip t line, true)

/-- Models `bufio.Reader.ReadString('\n')` over the remaining stream
contents: the consumed segment up to and including the first newline,
a flag that is `true` when the stream ended before a newline was found
(the `io.EOF` case), and the unconsumed rest. -/
def readLine : List Char → List Char × Bool × List Char
  | [] => ([], true, [])
  | c :: cs =>
    if c = '\n' then ([c], false, cs)
    else (c :: (readLine cs).1, (readLine cs).2)

/-- Result of `fileBatchReader.ReadBatch`: the batch text, whether the
call returned the `io.EOF` error (`isEOF = true`) or succeeded with a
`nil` error, and the unconsumed stream (state for the next call). -/
structure FOut where
  batch : List Char
  isEOF : Bool
  rest : List Char
deriving DecidableEq, Repr

/-- Loop body of `fileBatchReader.ReadBatch` (src/gsql/gsql.go:147-169),
fuel-indexed; the fuel strictly dominates the number of iterations
because every iteration consumes at least one character.  A read that
hits end-of-stream with an empty line returns the pending batch together
with `io.EOF`; otherwise the line is fed to `processLine`, returning the
finalized batch on a terminator match and looping otherwise.  (The
echo/line-counter bookkeeping does not affect the returned values and is
omitted.) -/
def fileReadBatchAux (t : List Char) : Nat → List Char → List Char → FOut
  | 0, rem, batch => ⟨batch, true, rem⟩
  | f + 1, rem, batch =>
    if (readLine rem).2.1 = true ∧ (readLine rem).1 = [] then
      ⟨batch, true, (readLine rem).2.2⟩
    else
      if (processLine t (readLine rem).1 batch).2 then
        ⟨(processLine t (readLine rem).1 batch).1, false, (readLine rem).2.2⟩
      else fileReadBatchAux t f (readLine rem).2.2 (processLine t (readLine rem).1 batch).1

/-- One `ReadBatch` call of the scripted source on stream contents
`rem`, starting from accumulated batch `batch` (the source initializes
it to empty). -/
def fileReadBatch (t rem batch : List Char) : FOut :=
  fileReadBatchAux t (rem.length + 1) rem batch

/-- Fuel-indexed check that no line produced by repeatedly reading from
`rem` passes the terminator match test of `processLine`. -/
def noTermAux (t : List Char) : Nat → List Char → Bool
  | 0, _ => true
  | f + 1, rem =>
    if rem = [] then true
    else !(plMatch t (readLine rem).1) && noTermAux t f (readLine rem).2.2

/-- No line of the stream `rem` matches the terminator. -/
def noTerm (t rem : List Char) : Bool :=
  noTermAux t (rem.length + 1) rem

/-- Renders emitted by the row loop of main (src/gsql/gsql.go:405-433):
the row counter `r` starts at `rows` already-consumed value 0; after
each fetched row it is incremented and a page is rendered whenever
`r % pageSize == 0`. -/
def pageLoop (S : Nat) : Nat → Nat → Nat
  | 0, _ => 0
  | n + 1, r => (if (r + 1) % S = 0 then 1 else 0) + pageLoop S n (r + 1)

/-- Total number of `render()` invocations for one result set with
column list `cols` and `rows` successfully fetched rows
(src/gsql/gsql.go:402-437): the in-loop page flushes plus the final
render guarded by `len(data) > 0 && len(cols) > 0`, where
`data := make([]string, len(cols))` has length `len(cols)` throughout. -/
def resultSetRenders (S : Nat) (cols : List (List Char)) (rows : Nat) : Nat :=
  let dataLen := cols.length
  pageLoop S rows 0 + (if 0 < dataLen ∧ 0 < cols.length then 1 else 0)

/-- Embedding of the summary-line logic (src/gsql/gsql.go:440-461):
`affected`/`returnStatus` are present exactly when the driver reported
them; the emitted line is `"(" + display + ")"`, or nothing when neither
is present.  The plural form is used exactly when `affected > 1`. -/
def summaryDisplay (affected returnStatus : Option Int) : Option (List Char) :=
  let d1 : List Char :=
    match affected with
    | some a =>
      if 1 < a then (toString a).toList ++ " rows affected".toList
      else (toString a).toList ++ " row affected".toList
    | none => []
  let d2 : List Char :=
    match returnStatus with
    | some r =>
      d1 ++ (if affected.isSome then ", ".toList else []) ++
        ("return status = ".toList ++ (toString r).toList)
    | none => d1
  if returnStatus.isSome || affected.isSome then some (('(' :: d2) ++ [')']) else none

/-- The three transaction control primitives of the session. -/
inductive Ctl where
  | begin : Ctl
  | commit : Ctl
  | rollback : Ctl
deriving DecidableEq, Repr

/-- Observable actions of the main loop, in program order. -/
inductive Event where
  | ctl (c : Ctl)
  | printReadErr
  | submit (b : List Char)
  | printSubmitErr
  | render
  | summary (s : List Char)
  | blank
deriving DecidableEq, Repr

/-- Error returned by `ReadBatch`: end-of-input or any other error. -/
inductive RdErr where
  | eof : RdErr
  | other : RdErr
deriving DecidableEq, Repr

/-- Error returned by `conn.QueryContext`: an engine-reported
`tds.SybError` (already surfaced by the error handler) or any other. -/
inductive QErr where
  | syb : QErr
  | other : QErr
deriving DecidableEq, Repr

/-- One result set as the driver presents it to the loop: the column
list (`none` models a `nil` column slice), the number of successfully
fetched rows, the optional rows-affected and return-status reports, and
whether `NextResultSet` fails when the loop advances past this set. -/
structure RSDesc where
  cols : Option (List (List Char))
  rows : Nat
  affected : Option Int
  retStatus : Option Int
  advErr : Bool
deriving DecidableEq, Repr

/-- One iteration's worth of external behaviour: what `ReadBatch`
returns and, if the batch is submitted, what the session produces. -/
structure BatchEntry where
  batch : List Char
  readErr : Option RdErr
  queryErr : Option QErr
  resultSets : List RSDesc
deriving DecidableEq, Repr

/-- Where control goes after the result-set loop of one batch. -/
inductive AfterBatch where
  | nextBatch : AfterBatch
  | halt : AfterBatch
deriving DecidableEq, Repr

/-- Events of one result set: its page renders followed by its summary
line, if any (src/gsql/gsql.go:402-463). -/
def rsEvents (S : Nat) (cols : List (List Char)) (rows : Nat)
    (affected retStatus : Option Int) : List Event :=
  List.replicate (resultSetRenders S cols rows) .render ++
    (match summaryDisplay affected retStatus with
     | some d => [.summary d]
     | none => [])

/-- The result-set loop of main (src/gsql/gsql.go:391-474): a `nil`
column list does `continue input`; after a set's events, if another set
is pending, a failing `NextResultSet` executes `return` — terminating
`main` itself, modelled as `halt` — otherwise a blank separator is
printed and the next set is consumed; with no pending set the loop
breaks to the next batch. -/
def runRS (S : Nat) : List RSDesc → List Event × AfterBatch
  | [] => ([], .nextBatch)
  | rs :: rest =>
    match rs.cols with
    | none => ([], .nextBatch)
    | some cols =>
      let evs := rsEvents S cols rs.rows rs.affected rs.retStatus
      match rest with
      | [] => (evs, .nextBatch)
      | rs2 :: rest2 =>
        if rs.advErr then (evs, .halt)
        else (evs ++ .blank :: (runRS S (rs2 :: rest2)).1, (runRS S (rs2 :: rest2)).2)

/-- The main input loop (src/gsql/gsql.go:340-475) over a script of
`ReadBatch` outcomes.  The control-command switch on the batch text runs
BEFORE the read error is examined; `io.EOF` breaks the loop silently,
any other read error is printed and breaks the loop; an engine-reported
submission error is not re-printed while any other one is, both
continuing with the next batch; otherwise the result-set loop runs and
either control returns for the next batch or `main` returns (`halt`),
ending the trace. -/
def mainLoop (S : Nat) : List BatchEntry → List Event
  | [] => []
  | e :: rest =>
    if e.batch = "\\b".toList then .ctl .begin :: mainLoop S rest
    else if e.batch = "\\c".toList then .ctl .commit :: mainLoop S rest
    else if e.batch = "\\r".toList then .ctl .rollback :: mainLoop S rest
    else
      match e.readErr with
      | some .eof => []
      | some .other => [.printReadErr]
      | none =>
        match e.queryErr with
        | some .syb => .submit e.batch :: mainLoop S rest
        | some .other => .submit e.batch :: .printSubmitErr :: mainLoop S rest
        | none =>
          .submit e.batch ::
            ((runRS S e.resultSets).1 ++
              (match (runRS S e.resultSets).2 with
               | .nextBatch => mainLoop S rest
               | .halt => []))

/-- One `Readline()` outcome of the interactive widget: a line of text,
the distinguished `readline.ErrInterrupt`, or any other error. -/
inductive RLEvent where
  | line (s : List Char)
  | interrupt : RLEvent
  | err : RLEvent
deriving DecidableEq, Repr

/-- Result of `readLineBatchReader.ReadBatch`: the line numbers shown in
the successive prompts, the finalized batch (`none` when the call
returned an error), and the unconsumed script. -/
structure RLOut where
  prompts : List Nat
  result : Option (List Char)
  rest : List RLEvent
deriving DecidableEq, Repr

/-- Embedding of `readLineBatchReader.ReadBatch`
(src/gsql/gsql.go:187-233) over a script of `Readline()` outcomes:
an interrupt resets the line counter to 1, clears the batch and loops
without returning; any other error returns `("", err)`; a terminator
match returns the finalized batch; otherwise the counter is incremented
and the loop continues.  An exhausted script ends the call with no
batch.  (Prompt text construction and history saving do not affect the
returned values and are omitted beyond the displayed line number.) -/
def rlReadBatch (t : List Char) : List RLEvent → List Char → Nat → RLOut
  | [], _, _ => ⟨[], none, []⟩
  | .interrupt :: evs, _, n =>
    ⟨n :: (rlReadBatch t evs [] 1).prompts, (rlReadBatch t evs [] 1).result,
      (rlReadBatch t evs [] 1).rest⟩
  | .err :: evs, _, n => ⟨[n], none, evs⟩
  | .line s :: evs, batch, n =>
    if (processLine t s batch).2 then ⟨[n], some (processLine t s batch).1, evs⟩
    else
      ⟨n :: (rlReadBatch t evs (processLine t s batch).1 (n + 1)).prompts,
        (rlReadBatch t evs (processLine t s batch).1 (n + 1)).result,
        (rlReadBatch t evs (processLine t s batch).1 (n + 1)).rest⟩

end Gsql

open Gsql

theorem processLine_snd (t line batch : List Char) :
    (processLine t line batch).2 = plMatch t line := by
  unfold processLine
  cases h : plMatch t line <;> simp [h]

/-- Claim C1 (code bug evaluation): with the program's default
terminator `;|^go`, the line `a; b` — whose only semicolon sits
mid-line, so the anchored pattern `(;|^go)$` does not match it at all —
is nevertheless reported as a terminator match by `processLine`, and the
returned "stripped" line is the whole input line, not a strict prefix:
the match test compiles `;|^go$`, where `$` binds only to the `^go`
alternative, so a mid-line semicolon matches, while the parenthesised
replacement regex finds nothing to strip. -/
theorem c1_code_bug_eval :
    processLine ";|^go".toList "a; b".toList [] = ("a; b".toList, true) ∧
    plStrip ";|^go".toList "a; b".toList = "a; b".toList ∧
    (goCompile ("(;|^go)$".toList)).map (fun r => matchString r "a; b".toList) =
      some false := by
  refine ⟨?_, ?_, ?_⟩ <;> decide

/-- Claim C2 counterexample: with terminator `;`, feeding the line `b;`
into a non-empty buffer `a` finalizes the batch as `ab` — the stripped
final line is concatenated directly onto the buffer — whereas the claim
demands the newline-joined `a\nb`. -/
theorem c2_counterexample :
    processLine ";".toList "b;".toList "a".toList = ("ab".toList, true) ∧
    "ab".toList ≠ ("a".toList ++ '\n' :: "b".toList) := by
  refine ⟨?_, ?_⟩ <;> decide

/-- Claim C2 (amended): on a terminator match against a non-empty
buffer, the finalized batch is the buffer with the stripped final line
appended DIRECTLY — no newline separates the previously accumulated
text from the stripped final line, and no trailing newline is added. -/
theorem c2_amended (t line batch : List Char) (_hb : batch ≠ [])
    (hm : plMatch t line = true) :
    processLine t line batch = (batch ++ plStrip t line, true) := by
  unfold processLine
  rw [hm]
  simp

theorem c2_amended_witness :
    processLine ";".toList "b;".toList "a".toList =
      ("a".toList ++ plStrip ";".toList "b;".toList, true) :=
  c2_amended ";".toList "b;".toList "a".toList (by decide) (by decide)

theorem readLine_append : ∀ rem : List Char,
    (readLine rem).1 ++ (readLine rem).2.2 = rem := by
  intro rem
  induction rem with
  | nil => rfl
  | cons c cs ih =>
    by_cases h : c = '\n'
    · simp [readLine, h]
    · simp only [readLine, if_neg h, List.cons_append]
      rw [ih]

theorem readLine_ne : ∀ rem : List Char, rem ≠ [] → (readLine rem).1 ≠ [] := by
  intro rem h
  cases rem with
  | nil => exact absurd rfl h
  | cons c cs =>
    by_cases hc : c = '\n'
    · simp [readLine, hc]
    · simp [readLine, hc]

theorem readLine_len (rem : List Char) (h : rem ≠ []) :
    (readLine rem).2.2.length < rem.length := by
  have ha := readLine_append rem
  have hn := readLine_ne rem h
  have hl : rem.length = (readLine rem).1.length + (readLine rem).2.2.length := by
    conv_lhs => rw [← ha]
    exact List.length_append _ _
  have hp : 0 < (readLine rem).1.length := List.length_pos.mpr hn
  omega

theorem fileAux_spec (t : List Char) : ∀ f rem b, rem.length < f →
    noTermAux t f rem = true →
    (fileReadBatchAux t f rem b).isEOF = true ∧
      (fileReadBatchAux t f rem b).rest = [] ∧
      ((fileReadBatchAux t f rem b).batch = [] → b = [] ∧ rem = []) := by
  intro f
  induction f with
  | zero => intro rem b h; omega
  | succ f ih =>
    intro rem b hlen hnt
    by_cases hrem : rem = []
    · subst hrem
      exact ⟨rfl, rfl, fun hb => ⟨hb, rfl⟩⟩
    · have hline : (readLine rem).1 ≠ [] := readLine_ne rem hrem
      have hnt' : (!(plMatch t (readLine rem).1) &&
          noTermAux t f (readLine rem).2.2) = true := by
        rw [noTermAux, if_neg hrem] at hnt
        exact hnt
      have hm : plMatch t (readLine rem).1 = false := by
        cases h : plMatch t (readLine rem).1
        · rfl
        · rw [h] at hnt'; simp at hnt'
      have hnt2 : noTermAux t f (readLine rem).2.2 = true := by
        cases h : noTermAux t f (readLine rem).2.2
        · rw [h] at hnt'; simp at hnt'
        · rfl
      have hfound : (processLine t (readLine rem).1 b).2 = false := by
        rw [processLine_snd]; exact hm
      have hcond : ¬((readLine rem).2.1 = true ∧ (readLine rem).1 = []) :=
        fun hx => hline hx.2
      have hrec : fileReadBatchAux t (f + 1) rem b =
          fileReadBatchAux t f (readLine rem).2.2
            (processLine t (readLine rem).1 b).1 := by
        rw [fileReadBatchAux, if_neg hcond, if_neg (by rw [hfound]; exact Bool.false_ne_true)]
      have hlen' : (readLine rem).2.2.length < f := by
        have := readLine_len rem hrem; omega
      obtain ⟨h1, h2, h3⟩ := ih (readLine rem).2.2
        (processLine t (readLine rem).1 b).1 hlen' hnt2
      rw [hrec]
      refine ⟨h1, h2, fun hb => ?_⟩
      exfalso
      obtain ⟨hpb, _⟩ := h3 hb
      have hb' : (processLine t (readLine rem).1 b).1 =
          (if b = [] then (readLine rem).1 else b ++ '\n' :: (readLine rem).1) := by
        unfold processLine
        rw [hm]
        simp
      rw [hb'] at hpb
      by_cases hbe : b = []
      · rw [if_pos hbe] at hpb; exact hline hpb
      · rw [if_neg hbe] at hpb
        exact hbe (List.append_eq_nil.mp hpb).1

/-- Claim C3 counterexample: a script whose final batch is never
terminated — stream contents `select 1\nfrom t` with terminator `;` —
makes `fileBatchReader.ReadBatch` return the accumulated text TOGETHER
WITH the `io.EOF` error (`isEOF = true`), not as a successful
error-free batch as the claim states (so `main`, which breaks on any
`io.EOF`, discards it).  The accumulated text also shows the doubled
newline the reader produces on scripted input. -/
theorem c3_counterexample :
    fileReadBatch ";".toList "select 1\nfrom t".toList [] =
      ⟨"select 1\n\nfrom t".toList, true, []⟩ ∧
    ¬(fileReadBatch ";".toList "select 1\nfrom t".toList []).isEOF = false := by
  refine ⟨?_, ?_⟩ <;> decide

/-- Claim C3 (amended): when the scripted source reaches end-of-input
with a non-empty pending batch and no terminator ever matched,
`ReadBatch` returns the accumulated (non-empty) text together with the
`io.EOF` error — not error-free, so the caller treats it as end-of-input
and never executes it — and the immediately following `ReadBatch` call
reports end-of-input with an empty batch. -/
theorem c3_amended (t rem : List Char) (h1 : rem ≠ []) (h2 : noTerm t rem = true) :
    (fileReadBatch t rem []).isEOF = true ∧
      (fileReadBatch t rem []).batch ≠ [] ∧
      (fileReadBatch t rem []).rest = [] ∧
      fileReadBatch t [] [] = ⟨[], true, []⟩ := by
  obtain ⟨ha, hb, hc⟩ := fileAux_spec t (rem.length + 1) rem [] (by omega) h2
  refine ⟨ha, fun hx => h1 (hc hx).2, hb, rfl⟩

theorem c3_amended_witness :
    (fileReadBatch ";".toList "ab".toList []).isEOF = true ∧
      (fileReadBatch ";".toList "ab".toList []).batch ≠ [] ∧
      (fileReadBatch ";".toList "ab".toList []).rest = [] ∧
      fileReadBatch ";".toList [] [] = ⟨[], true, []⟩ :=
  c3_amended ";".toList "ab".toList (by decide) (by decide)

theorem pageLoop_eq (S : Nat) : ∀ n r,
    pageLoop S n r = (r + n) / S - r / S := by
  intro n
  induction n with
  | zero => intro r; simp [pageLoop]
  | succ n ih =>
    intro r
    have hmono : (r + 1) / S ≤ (r + 1 + n) / S := Nat.div_le_div_right (by omega)
    have hsucc : (r + 1) / S = r / S + if S ∣ (r + 1) then 1 else 0 := Nat.succ_div r S
    have hiff : (r + 1) % S = 0 ↔ S ∣ (r + 1) :=
      Nat.dvd_iff_mod_eq_zero.symm
    have hrec : pageLoop S (n + 1) r =
        (if (r + 1) % S = 0 then 1 else 0) + pageLoop S n (r + 1) := rfl
    rw [hrec, ih (r + 1)]
    have hre : r + (n + 1) = r + 1 + n := by omega
    rw [hre]
    have key : ∀ A B C d : Nat, B = C + d → B ≤ A → d ≤ 1 →
        d + (A - B) = A - C := by
      intro A B C d h1 h2 h3; omega
    by_cases hc : S ∣ (r + 1)
    · rw [if_pos (hiff.mpr hc)]
      rw [if_pos hc] at hsucc
      exact key _ _ _ _ hsucc hmono (by omega)
    · rw [if_neg (fun h => hc (hiff.mp h))]
      rw [if_neg hc] at hsucc
      exact key _ _ _ _ (by omega) hmono (by omega)

/-- Claim C4 counterexample: a result set with one column, zero rows and
page size 2 still triggers one `render()` call — the final-page guard is
`len(data) > 0 && len(cols) > 0` with `data := make([]string, len(cols))`
always of length `len(cols)` — whereas the claim states zero `render()`
invocations when the row count is zero. -/
theorem c4_counterexample :
    resultSetRenders 2 ["x".toList] 0 = 1 ∧
    ¬ resultSetRenders 2 ["x".toList] 0 = 0 := by
  refine ⟨?_, ?_⟩ <;> decide

/-- Claim C4 (amended): for a positive page size S and a non-empty
column list, `render()` is invoked exactly `floor(R / S) + 1` times for
R fetched rows: the final (possibly partial, possibly empty) page is
ALWAYS rendered when the column list is non-empty — also when R = 0 and
also when R is an exact multiple of S, in which case the extra final
page is empty. -/
theorem c4_amended (S : Nat) (cols : List (List Char)) (rows : Nat)
    (_hS : 0 < S) (hc : cols ≠ []) :
    resultSetRenders S cols rows = rows / S + 1 := by
  unfold resultSetRenders
  have h1 : 0 < cols.length := List.length_pos.mpr hc
  rw [pageLoop_eq S rows 0]
  simp [h1]

theorem c4_amended_witness :
    resultSetRenders 3 ["x".toList] 7 = 7 / 3 + 1 :=
  c4_amended 3 ["x".toList] 7 (by decide) (by decide)

/-- Claim C5 counterexample: a result set reporting rows-affected = 0
and no return status renders the SINGULAR line `(0 row affected)` — the
code uses the plural only for `affected > 1` — whereas the claim states
a count of 0 renders the plural `0 rows affected`. -/
theorem c5_counterexample :
    summaryDisplay (some 0) none = some "(0 row affected)".toList ∧
    ¬ summaryDisplay (some 0) none = some "(0 rows affected)".toList := by
  refine ⟨?_, ?_⟩ <;> decide

/-- Claim C5 (amended): a rows-affected count strictly greater than 1
renders the plural summary, any count of at most 1 — including 0 —
renders the singular `<n> row affected`; when both rows-affected and
return-status are reported, both appear comma-separated on one summary
line; a return status alone renders alone; when neither is reported no
summary line is emitted. -/
theorem c5_amended :
    (∀ a : Int, 1 < a →
      summaryDisplay (some a) none =
        some (('(' :: ((toString a).toList ++ " rows affected".toList)) ++ [')'])) ∧
    (∀ a : Int, a ≤ 1 →
      summaryDisplay (some a) none =
        some (('(' :: ((toString a).toList ++ " row affected".toList)) ++ [')'])) ∧
    (∀ a r : Int, 1 < a →
      summaryDisplay (some a) (some r) =
        some (('(' :: ((toString a).toList ++ " rows affected".toList ++
          ", ".toList ++ ("return status = ".toList ++ (toString r).toList))) ++ [')'])) ∧
    (∀ r : Int,
      summaryDisplay none (some r) =
        some (('(' :: ("return status = ".toList ++ (toString r).toList)) ++ [')'])) ∧
    summaryDisplay none none = none := by
  refine ⟨?_, ?_, ?_, ?_, rfl⟩
  · intro a ha
    simp [summaryDisplay, ha]
  · intro a ha
    have hna : ¬(1 < a) := by omega
    simp [summaryDisplay, hna]
  · intro a r ha
    simp [summaryDisplay, ha]
  · intro r
    simp [summaryDisplay]

theorem c5_amended_witness :
    summaryDisplay (some 3) none =
      some (('(' :: ((toString (3 : Int)).toList ++ " rows affected".toList)) ++ [')']) ∧
    summaryDisplay (some 1) none =
      some (('(' :: ((toString (1 : Int)).toList ++ " row affected".toList)) ++ [')']) ∧
    summaryDisplay (some 2) (some 5) =
      some (('(' :: ((toString (2 : Int)).toList ++ " rows affected".toList ++
        ", ".toList ++ ("return status = ".toList ++ (toString (5 : Int)).toList))) ++ [')']) :=
  ⟨c5_amended.1 3 (by decide), c5_amended.2.1 1 (by decide),
    c5_amended.2.2.1 2 5 (by decide)⟩

/-- Claim C6 counterexample: a script of two batches where advancing
past the first result set of batch `q1` fails.  The claim says only the
current batch is aborted and the loop goes on to execute `q2`; the code
instead executes `return` from `main`, so the trace ends with `q1`'s
events and `q2` is never submitted. -/
theorem c6_counterexample :
    mainLoop 2
      [⟨"q1".toList, none, none,
          [⟨some ["a".toList], 0, none, none, true⟩,
           ⟨some ["a".toList], 1, none, none, false⟩]⟩,
       ⟨"q2".toList, none, none, [⟨some ["a".toList], 1, none, none, false⟩]⟩] =
      [Event.submit "q1".toList, Event.render] ∧
    Event.submit "q2".toList ∉
      mainLoop 2
        [⟨"q1".toList, none, none,
            [⟨some ["a".toList], 0, none, none, true⟩,
             ⟨some ["a".toList], 1, none, none, false⟩]⟩,
         ⟨"q2".toList, none, none, [⟨some ["a".toList], 1, none, none, false⟩]⟩] := by
  refine ⟨?_, ?_⟩ <;> decide

/-- Claim C6 (amended): when `NextResultSet` fails, the code executes
`return` from `main`: the whole program terminates.  The trace of the
loop consists of the failing batch's submission and the events produced
up to the failure; no later batch entry is read or executed, whatever it
contains. -/
theorem c6_amended (S : Nat) (e : BatchEntry) (rest : List BatchEntry)
    (h1 : e.batch ≠ "\\b".toList) (h2 : e.batch ≠ "\\c".toList)
    (h3 : e.batch ≠ "\\r".toList) (h4 : e.readErr = none)
    (h5 : e.queryErr = none) (h6 : (runRS S e.resultSets).2 = .halt) :
    mainLoop S (e :: rest) = .submit e.batch :: (runRS S e.resultSets).1 := by
  simp only [mainLoop]
  rw [if_neg h1, if_neg h2, if_neg h3, h4, h5, h6]
  simp

theorem c6_amended_witness :
    mainLoop 2
      (⟨"q1".toList, none, none,
          [⟨some ["a".toList], 0, none, none, true⟩,
           ⟨some ["a".toList], 1, none, none, false⟩]⟩ ::
        [⟨"q3".toList, none, none, [⟨some ["a".toList], 1, none, none, false⟩]⟩]) =
      .submit "q1".toList ::
        (runRS 2 [⟨some ["a".toList], 0, none, none, true⟩,
          ⟨some ["a".toList], 1, none, none, false⟩]).1 :=
  c6_amended 2
    ⟨"q1".toList, none, none,
      [⟨some ["a".toList], 0, none, none, true⟩,
       ⟨some ["a".toList], 1, none, none, false⟩]⟩
    [⟨"q3".toList, none, none, [⟨some ["a".toList], 1, none, none, false⟩]⟩]
    (by decide) (by decide) (by decide) rfl rfl (by decide)

/-- Claim C7: a finalized batch exactly equal to one of the reserved
literals `\b`, `\c`, `\r` contributes exactly one invocation of the
corresponding session primitive to the trace — no submission to the
session, no result rendering, no summary — after which the loop
proceeds with the remaining batches, whatever the submission script for
that entry would have been. -/
theorem c7_confirmed (S : Nat) (q : Option QErr) (rsl : List RSDesc)
    (rest : List BatchEntry) :
    mainLoop S (⟨"\\b".toList, none, q, rsl⟩ :: rest) =
      .ctl .begin :: mainLoop S rest ∧
    mainLoop S (⟨"\\c".toList, none, q, rsl⟩ :: rest) =
      .ctl .commit :: mainLoop S rest ∧
    mainLoop S (⟨"\\r".toList, none, q, rsl⟩ :: rest) =
      .ctl .rollback :: mainLoop S rest :=
  ⟨rfl, rfl, rfl⟩

/-- Claim C10: the control-command switch on the batch text runs before
the `ReadBatch` error is examined, so a batch equal to `\b`, `\c` or
`\r` returned TOGETHER WITH an error (end-of-input or any other) still
invokes the corresponding transaction primitive, prints nothing, and
the loop continues with another `ReadBatch` call instead of
terminating. -/
theorem c10_confirmed (S : Nat) (er : RdErr) (q : Option QErr)
    (rsl : List RSDesc) (rest : List BatchEntry) :
    mainLoop S (⟨"\\b".toList, some er, q, rsl⟩ :: rest) =
      .ctl .begin :: mainLoop S rest ∧
    mainLoop S (⟨"\\c".toList, some er, q, rsl⟩ :: rest) =
      .ctl .commit :: mainLoop S rest ∧
    mainLoop S (⟨"\\r".toList, some er, q, rsl⟩ :: rest) =
      .ctl .rollback :: mainLoop S rest :=
  ⟨rfl, rfl, rfl⟩

/-- Claim C8: an interrupt during interactive accumulation discards the
partial buffer and resets the line counter to 1, continuing the prompt
loop inside the same `ReadBatch` call (first conjunct: the call's
outcome is that of restarting on the remaining input with an empty
buffer and counter 1, with the interrupted prompt's number prepended);
consequently the successfully finalized batch — and the leftover input —
are exactly those obtained from the lines entered after the interrupt,
independent of any non-terminating lines typed before it and of the
buffer and counter state (second conjunct). -/
theorem c8_confirmed (t : List Char) (evs : List RLEvent) (b : List Char) (n : Nat) :
    (rlReadBatch t (.interrupt :: evs) b n =
      ⟨n :: (rlReadBatch t evs [] 1).prompts, (rlReadBatch t evs [] 1).result,
        (rlReadBatch t evs [] 1).rest⟩) ∧
    (∀ pre : List (List Char), (∀ s ∈ pre, plMatch t s = false) →
      (rlReadBatch t (pre.map RLEvent.line ++ .interrupt :: evs) b n).result =
        (rlReadBatch t evs [] 1).result ∧
      (rlReadBatch t (pre.map RLEvent.line ++ .interrupt :: evs) b n).rest =
        (rlReadBatch t evs [] 1).rest) := by
  refine ⟨rfl, ?_⟩
  intro pre
  induction pre generalizing b n with
  | nil => intro _; exact ⟨rfl, rfl⟩
  | cons s pre ih =>
    intro h
    have hs : plMatch t s = false := h s (List.mem_cons_self _ _)
    have hfound : (processLine t s b).2 = false := by
      rw [processLine_snd]; exact hs
    have hrest : ∀ x ∈ pre, plMatch t x = false := fun x hx =>
      h x (List.mem_cons_of_mem _ hx)
    have hstep : rlReadBatch t ((s :: pre).map RLEvent.line ++ .interrupt :: evs) b n =
        ⟨n :: (rlReadBatch t (pre.map RLEvent.line ++ .interrupt :: evs)
            (processLine t s b).1 (n + 1)).prompts,
          (rlReadBatch t (pre.map RLEvent.line ++ .interrupt :: evs)
            (processLine t s b).1 (n + 1)).result,
          (rlReadBatch t (pre.map RLEvent.line ++ .interrupt :: evs)
            (processLine t s b).1 (n + 1)).rest⟩ := by
      simp only [List.map_cons, List.cons_append]
      rw [rlReadBatch, if_neg (by rw [hfound]; exact Bool.false_ne_true)]
    rw [hstep]
    exact ih (processLine t s b).1 (n + 1) hrest

theorem c8_confirmed_witness :
    (rlReadBatch ";".toList
        (["ab".toList].map RLEvent.line ++
          RLEvent.interrupt :: [RLEvent.line "x;".toList]) "junk".toList 7).result =
      (rlReadBatch ";".toList [RLEvent.line "x;".toList] [] 1).result :=
  ((c8_confirmed ";".toList [RLEvent.line "x;".toList] "junk".toList 7).2
    ["ab".toList] (by decide)).1

example : plMatch ";|^go".toList "go".toList = true := by decide
example : plStrip ";|^go".toList "go".toList = [] := by decide
example : processLine ";|^go".toList "go".toList "select 1".toList = ("select 1".toList, true) := by decide
example : plMatch ";".toList "select 1;".toList = true := by decide
example : plStrip ";".toList "select 1;".toList = "select 1".toList := by decide
example : plMatch ";".toList "abc;\n".toList = false := by decide
example : plMatch ";|^go".toList "go on".toList = false := by decide
example : plMatch ";|^go".toList "ago".toList = false := by decide
example : plMatch ";|^go".toList "ago;".toList = true := by decide
example : plStrip ";|^go".toList "a;b;".toList = "a;b".toList := by decide
example : plMatch "".toList "x".toList = true := by decide
example : goCompile ";|^go$".toList = some (.alt (.cat (.chr ';') .eps) (.cat .bol (.cat (.chr 'g') (.cat (.chr 'o') (.cat .eol .eps))))) := by decide
example : goCompile "(;|^go)$".toList = some (.cat (.alt (.cat (.chr ';') .eps) (.cat .bol (.cat (.chr 'g') (.cat (.chr 'o') .eps)))) (.cat .eol .eps)) := by decide
